import Mathlib

/-!
# Verification of the finman personal finance tracker core

Shallow embedding of the `Transaction` / `FinanceManager` logic of
`src/taskmanv1.py`.  Python numeric amounts (`int` or `float`) are modelled
as exact rationals `ℚ`; a non-numeric Python value passed as an amount is
the extra constructor `Amount.nonNum`.  The two `ValueError`s raised by the
`Transaction` constructor are the inductive `TError`
(`invalidAmount` for "Amount must be a positive number",
`invalidKind` for "Transaction type must be either 'expense' or 'income'").
Python `datetime` values are a record of calendar fields plus a sub-second
fraction; `strftime('%Y-%m-%d %H:%M:%S')` followed by `strptime` with the
same format keeps every field and zeroes the fraction, which is the
`DateTime.truncate` function here.  The sqlite table is a list of rows with
an auto-increment primary key counter.
-/

namespace Finman

/-- A Python value passed as the `amount` argument: either a numeric value
(`int`/`float`, modelled as an exact rational) or anything non-numeric,
which fails the `isinstance(amount, (int, float))` test. -/
inductive Amount where
  | num (q : ℚ)
  | nonNum
deriving DecidableEq

/-- The two `ValueError`s raised by `Transaction.__init__`:
`invalidAmount` is "Amount must be a positive number",
`invalidKind` is "Transaction type must be either 'expense' or 'income'". -/
inductive TError where
  | invalidAmount
  | invalidKind
deriving DecidableEq

/-- A Python `datetime`: calendar fields down to whole seconds plus the
sub-second fraction (microseconds, as a rational in `[0,1)`). -/
structure DateTime where
  year : Nat
  month : Nat
  day : Nat
  hour : Nat
  minute : Nat
  second : Nat
  frac : ℚ
deriving DecidableEq

/-- The information kept by storing a `datetime` as
`strftime('%Y-%m-%d %H:%M:%S')` text and parsing it back with
`datetime.strptime(date, '%Y-%m-%d %H:%M:%S')`: all fields survive except
the sub-second fraction, which becomes 0. -/
def DateTime.truncate (d : DateTime) : DateTime :=
  { d with frac := 0 }

/-- A constructed `Transaction` object: `self.amount = float(amount)`,
`self.category = category`, `self.type = transac_type.lower()`,
`self.date = date`. -/
structure Transaction where
  amount : ℚ
  category : String
  type : String
  date : DateTime
deriving DecidableEq

/-- Python `str.lower()`: lowercase the string character by character. -/
def strLower (s : String) : String := String.mk (s.data.map Char.toLower)

/-- `valid_types = ['expense', 'income']` from `Transaction.__init__`. -/
def valid_types : List String := ["expense", "income"]

/-- `Transaction.__init__(self, amount, category, transac_type='expense',
date=None)` from `src/taskmanv1.py` lines 12-26.  The checks run in source
order: amount first (`not isinstance(amount, (int, float)) or amount <= 0`
raises `ValueError("Amount must be a positive number")`), then the kind
(`transac_type.lower() not in valid_types` raises
`ValueError("Transaction type must be ...")`).  `date=None` defaults to
`datetime.now()`, passed here as `now`. -/
def Transaction.make (amount : Amount) (category : String)
    (transac_type : String) (date : Option DateTime) (now : DateTime) :
    Except TError Transaction :=
  match amount with
  | Amount.nonNum => Except.error TError.invalidAmount
  | Amount.num q =>
    if q ≤ 0 then Except.error TError.invalidAmount
    else if strLower transac_type ∉ valid_types then
      Except.error TError.invalidKind
    else
      Except.ok { amount := q, category := category,
                  type := strLower transac_type, date := date.getD now }

/-- A row of the sqlite `transactions` table:
`(id INTEGER PRIMARY KEY, amount REAL, category TEXT, type TEXT, date TEXT)`.
The `date` text column holds the seconds-precision datetime written by
`strftime('%Y-%m-%d %H:%M:%S')`. -/
structure Row where
  id : Nat
  amount : ℚ
  category : String
  type : String
  date : DateTime
deriving DecidableEq

/-- The `FinanceManager` state: the in-memory `self.transactions` list plus
the durable `finance.db` table contents and its auto-increment id counter. -/
structure FinanceManager where
  transactions : List Transaction
  db : List Row
  nextId : Nat
deriving DecidableEq

/-- One step of the loop in `FinanceManager.load_transactions`:
`date = datetime.strptime(date, '%Y-%m-%d %H:%M:%S')` (the stored
seconds-precision datetime, unchanged) then
`Transaction(amount, category, trans_type, date)`, which may raise. -/
def rowToTransaction (r : Row) : Except TError Transaction :=
  Transaction.make (Amount.num r.amount) r.category r.type (some r.date) r.date

/-- The loop of `FinanceManager.load_transactions` over all fetched rows,
in table order; the first row whose `Transaction(...)` constructor raises
aborts the load with that error. -/
def loadRows : List Row → Except TError (List Transaction)
  | [] => Except.ok []
  | r :: rs =>
    match rowToTransaction r with
    | Except.error e => Except.error e
    | Except.ok t =>
      match loadRows rs with
      | Except.error e => Except.error e
      | Except.ok ts => Except.ok (t :: ts)

/-- `FinanceManager.load_transactions` (lines 51-60): fetches every row and
**appends** each resulting `Transaction` to `self.transactions`
(`self.transactions.append(transaction)`); the existing list is never
cleared. -/
def FinanceManager.load_transactions (m : FinanceManager) :
    Except TError FinanceManager :=
  match loadRows m.db with
  | Except.error e => Except.error e
  | Except.ok ts => Except.ok { m with transactions := m.transactions ++ ts }

/-- `FinanceManager.add_transaction` (lines 62-79): constructs the
`Transaction`; on `ValueError` shows a message box and returns `False` with
nothing changed; on success appends it to `self.transactions`, inserts a
row `(amount, category, type, strftime('%Y-%m-%d %H:%M:%S'))` with a fresh
auto-increment id, and returns `True`. -/
def FinanceManager.add_transaction (m : FinanceManager) (amount : Amount)
    (category : String) (trans_type : String) (date : Option DateTime)
    (now : DateTime) : Bool × FinanceManager :=
  match Transaction.make amount category trans_type date now with
  | Except.error _ => (false, m)
  | Except.ok t =>
    (true,
     { m with
        transactions := m.transactions ++ [t],
        db := m.db ++ [{ id := m.nextId, amount := t.amount,
                         category := t.category, type := t.type,
                         date := t.date.truncate }],
        nextId := m.nextId + 1 })

/-- `FinanceManager.delete_transaction` (lines 115-120): deletes the rows
whose `id` matches from the table, then calls `self.load_transactions()` —
which appends the reloaded rows to the still-populated in-memory list. -/
def FinanceManager.delete_transaction (m : FinanceManager) (tid : Nat) :
    Except TError FinanceManager :=
  FinanceManager.load_transactions
    { m with db := m.db.filter (fun r => r.id ≠ tid) }

/-- `get_total_income` (lines 81-82):
`sum(t.amount for t in self.transactions if t.type == 'income')`. -/
def FinanceManager.get_total_income (m : FinanceManager) : ℚ :=
  ((m.transactions.filter (fun t => t.type = "income")).map
    Transaction.amount).sum

/-- `get_total_expenses` (lines 84-85):
`sum(t.amount for t in self.transactions if t.type == 'expense')`. -/
def FinanceManager.get_total_expenses (m : FinanceManager) : ℚ :=
  ((m.transactions.filter (fun t => t.type = "expense")).map
    Transaction.amount).sum

/-- `get_balance` (lines 87-88):
`self.get_total_income() - self.get_total_expenses()`. -/
def FinanceManager.get_balance (m : FinanceManager) : ℚ :=
  m.get_total_income - m.get_total_expenses

/-- `get_transactions_by_category(self, category=None)` (lines 90-93):
`if category:` — so both `None` and the empty string (falsy) return the
whole list; otherwise the case-insensitive filter runs. -/
def FinanceManager.get_transactions_by_category (m : FinanceManager)
    (category : Option String) : List Transaction :=
  match category with
  | none => m.transactions
  | some c =>
    if c = "" then m.transactions
    else m.transactions.filter (fun t => strLower t.category = strLower c)

/-- Python dict update `d[k] = d.get(k, 0) + a` on an insertion-ordered
association list with unique keys: the first matching key's value grows by
`a`, a missing key is appended at the end with value `a`. -/
def dictAdd : List (String × ℚ) → String → ℚ → List (String × ℚ)
  | [], k, a => [(k, a)]
  | (k', v) :: rest, k, a =>
    if k' = k then (k', v + a) :: rest
    else (k', v) :: dictAdd rest k a

/-- The loop of `get_category_totals` (lines 105-113) over the remaining
transactions, threading the two dicts: `t.type == 'expense'` goes to the
expense dict, everything else (`else:`) to the income dict, keyed by the
raw `t.category` string. -/
def categoryTotalsAux :
    List Transaction → List (String × ℚ) × List (String × ℚ) →
    List (String × ℚ) × List (String × ℚ)
  | [], acc => acc
  | t :: ts, (ec, ic) =>
    if t.type = "expense" then
      categoryTotalsAux ts (dictAdd ec t.category t.amount, ic)
    else
      categoryTotalsAux ts (ec, dictAdd ic t.category t.amount)

/-- `get_category_totals` (lines 105-113): starts from two empty dicts and
runs the accumulation loop over `self.transactions`; returns
`(expense_categories, income_categories)`. -/
def FinanceManager.get_category_totals (m : FinanceManager) :
    List (String × ℚ) × List (String × ℚ) :=
  categoryTotalsAux m.transactions ([], [])

/-- Python `d.get(k, 0)` on the association-list dict model. -/
def lookupD (d : List (String × ℚ)) (k : String) : ℚ :=
  match d with
  | [] => 0
  | (k', v) :: rest => if k' = k then v else lookupD rest k

/-- `sum(d.values())` on the association-list dict model. -/
def sumValues (d : List (String × ℚ)) : ℚ :=
  (d.map Prod.snd).sum

/-! ### Concrete fixtures used by witnesses and counterexamples -/

/-- A concrete datetime, 2024-01-05 12:00:00 (no sub-second part). -/
def now0 : DateTime := ⟨2024, 1, 5, 12, 0, 0, 0⟩

/-- A concrete expense transaction: 10 for "Food" at `now0`. -/
def tFood : Transaction :=
  { amount := 10, category := "Food", type := "expense", date := now0 }

/-- The stored row of `tFood`, with primary key 1. -/
def rFood : Row :=
  { id := 1, amount := 10, category := "Food", type := "expense", date := now0 }

/-- A manager holding `tFood` in memory, mirrored in storage. -/
def mgrFood : FinanceManager :=
  { transactions := [tFood], db := [rFood], nextId := 2 }

/-! ### Helper lemmas shared between claims -/

/-- The success case of the constructor: a positive numeric amount and a
kind whose lowercase form is in `valid_types` yield exactly the stored
record. -/
theorem make_ok (q : ℚ) (hq : 0 < q) (category kind : String)
    (hk : strLower kind ∈ valid_types) (date : Option DateTime)
    (now : DateTime) :
    Transaction.make (Amount.num q) category kind date now =
      Except.ok { amount := q, category := category, type := strLower kind,
                  date := date.getD now } := by
  simp [Transaction.make, not_le.mpr hq, hk]

/-- Lowercasing is the identity on the two valid kind strings. -/
theorem strLower_of_valid (s : String) (h : s ∈ valid_types) :
    strLower s = s := by
  simp only [valid_types, List.mem_cons, List.not_mem_nil, or_false] at h
  rcases h with h | h <;> subst h <;> decide

/-! ### Claims -/

/-- Claim C1: For every amount that is not a positive number (`amount ≤ 0`,
or not numeric at all), `Transaction` construction fails with an
`InvalidAmount` error; for every positive numeric amount, this check
passes (construction never reports `InvalidAmount`). -/
theorem make_invalidAmount_iff (amount : Amount) (category kind : String)
    (date : Option DateTime) (now : DateTime) :
    Transaction.make amount category kind date now =
        Except.error TError.invalidAmount ↔
      amount = Amount.nonNum ∨ ∃ q, amount = Amount.num q ∧ q ≤ 0 := by
  cases amount with
  | nonNum => simp [Transaction.make]
  | num q =>
    by_cases hq : q ≤ 0
    · simp [Transaction.make, hq]
    · simp only [Transaction.make, if_neg hq]
      constructor
      · intro h
        split at h <;> simp_all
      · rintro (h | ⟨q', hq', hle⟩)
        · exact absurd h (by simp)
        · cases hq'
          exact absurd hle hq

/-- Claim C2 counterexample: kind "transfer" is not a valid kind even
case-insensitively, yet with amount -5 construction fails with
`InvalidAmount`, not `InvalidKind` — the amount check runs first, so a bad
kind does not always produce `InvalidKind`. -/
theorem make_badKind_after_badAmount :
    strLower "transfer" ∉ valid_types ∧
    Transaction.make (Amount.num (-5)) "Food" "transfer" none now0 =
      Except.error TError.invalidAmount ∧
    TError.invalidAmount ≠ TError.invalidKind :=
  ⟨by decide, rfl, by decide⟩

/-- Claim C2 (amended): provided the amount is a positive number, every
kind whose lowercase form is not "expense" or "income" makes `Transaction`
construction fail with an `InvalidKind` error. -/
theorem make_badKind_invalidKind (q : ℚ) (hq : 0 < q)
    (category kind : String) (hk : strLower kind ∉ valid_types)
    (date : Option DateTime) (now : DateTime) :
    Transaction.make (Amount.num q) category kind date now =
      Except.error TError.invalidKind := by
  simp [Transaction.make, not_le.mpr hq, hk]

/-- Witness for `make_badKind_invalidKind`: amount 5 and kind "Transfer". -/
theorem make_badKind_invalidKind_witness :
    Transaction.make (Amount.num 5) "Food" "Transfer" none now0 =
      Except.error TError.invalidKind :=
  make_badKind_invalidKind 5 (by norm_num) "Food" "Transfer" (by decide)
    none now0

/-- Claim C3: for every ledger state (hence every state reachable by any
sequence of additions and deletions), `get_balance` equals
`get_total_income` minus `get_total_expenses`, where the total income
(resp. expense) is the sum of the amounts of the transactions whose kind is
income (resp. expense). -/
theorem get_balance_eq_income_sub_expenses (m : FinanceManager) :
    m.get_balance = m.get_total_income - m.get_total_expenses ∧
    m.get_total_income =
      ((m.transactions.filter (fun t => t.type = "income")).map
        Transaction.amount).sum ∧
    m.get_total_expenses =
      ((m.transactions.filter (fun t => t.type = "expense")).map
        Transaction.amount).sum :=
  ⟨rfl, rfl, rfl⟩

/-- Claim C6: when `add_transaction` is called with input the `Transaction`
constructor rejects, it returns `False` and the manager state — both the
in-memory list and the durable table — is unchanged. -/
theorem add_transaction_invalid_unchanged (m : FinanceManager)
    (amount : Amount) (category kind : String) (date : Option DateTime)
    (now : DateTime) (e : TError)
    (he : Transaction.make amount category kind date now = Except.error e) :
    m.add_transaction amount category kind date now = (false, m) := by
  simp [FinanceManager.add_transaction, he]

/-- Witness for `add_transaction_invalid_unchanged`: amount -5, category
"Food", kind "expense" fails with `InvalidAmount` and leaves `mgrFood`
unchanged. -/
theorem add_transaction_invalid_unchanged_witness :
    Transaction.make (Amount.num (-5)) "Food" "expense" none now0 =
      Except.error TError.invalidAmount ∧
    mgrFood.add_transaction (Amount.num (-5)) "Food" "expense" none now0 =
      (false, mgrFood) :=
  ⟨rfl,
   add_transaction_invalid_unchanged mgrFood (Amount.num (-5)) "Food"
     "expense" none now0 TError.invalidAmount rfl⟩

/-- Claim C9: for every kind string whose lowercase form is "expense" or
"income", construction succeeds given a positive numeric amount, and the
stored kind equals the lowercase form of the input. -/
theorem make_valid_kind_lowercased (q : ℚ) (hq : 0 < q)
    (category kind : String) (hk : strLower kind ∈ valid_types)
    (date : Option DateTime) (now : DateTime) :
    ∃ t, Transaction.make (Amount.num q) category kind date now =
      Except.ok t ∧ t.type = strLower kind :=
  ⟨_, make_ok q hq category kind hk date now, rfl⟩

/-- Witness for `make_valid_kind_lowercased`: amount 3 and kind "Income". -/
theorem make_valid_kind_lowercased_witness :
    ∃ t, Transaction.make (Amount.num 3) "Salary" "Income" none now0 =
      Except.ok t ∧ t.type = strLower "Income" :=
  make_valid_kind_lowercased 3 (by norm_num) "Salary" "Income" (by decide)
    none now0

/-- The state `mgrFood.delete_transaction 2` actually produces: storage
still holds the single row, but the in-memory list holds its transaction
twice. -/
def mgrFoodAfterDelete : FinanceManager :=
  { transactions := [tFood, tFood], db := [rFood], nextId := 2 }

/-- Claim C4 (code bug): deleting id 2 — absent from storage — leaves the
single stored row (which decodes to `[tFood]`), but the in-memory sequence
is NOT rebuilt to equal storage: `load_transactions` appends to the
still-populated list, so the sequence ends as `[tFood, tFood]`, not
`[tFood]`. -/
theorem delete_transaction_duplicates :
    mgrFood.delete_transaction 2 = Except.ok mgrFoodAfterDelete ∧
    loadRows mgrFoodAfterDelete.db = Except.ok [tFood] ∧
    mgrFoodAfterDelete.transactions = [tFood, tFood] ∧
    ([tFood, tFood] : List Transaction) ≠ [tFood] :=
  ⟨rfl, rfl, rfl, by decide⟩

/-- Claim C7 counterexample: filtering by the empty category string returns
the whole list — here `mgrFood`'s only transaction, whose category is
"Food" — rather than the (empty) list of case-insensitive matches of "". -/
theorem get_transactions_by_category_empty_counterexample :
    mgrFood.get_transactions_by_category (some "") = [tFood] ∧
    mgrFood.transactions.filter
      (fun t => strLower t.category = strLower "") = [] ∧
    ([tFood] : List Transaction) ≠ [] :=
  ⟨rfl, rfl, by decide⟩

/-- Claim C7 (amended): for every NON-empty category string the filter
returns exactly the transactions whose category matches it
case-insensitively, in their original order; the empty string (like the
`None` default) instead returns the full sequence unfiltered. -/
theorem get_transactions_by_category_filters (m : FinanceManager)
    (c : String) (hc : c ≠ "") :
    m.get_transactions_by_category (some c) =
      m.transactions.filter (fun t => strLower t.category = strLower c) ∧
    m.get_transactions_by_category (some "") = m.transactions ∧
    m.get_transactions_by_category none = m.transactions := by
  refine ⟨?_, rfl, rfl⟩
  simp [FinanceManager.get_transactions_by_category, hc]

/-- Witness for `get_transactions_by_category_filters` at category
"FOOD". -/
theorem get_transactions_by_category_filters_witness :
    mgrFood.get_transactions_by_category (some "FOOD") =
      mgrFood.transactions.filter
        (fun t => strLower t.category = strLower "FOOD") ∧
    mgrFood.get_transactions_by_category (some "") = mgrFood.transactions ∧
    mgrFood.get_transactions_by_category none = mgrFood.transactions :=
  get_transactions_by_category_filters mgrFood "FOOD" (by decide)

/-- Loading a table with one extra row at the end loads the old rows
followed by the decoded new row. -/
theorem loadRows_append (db : List Row) (ts : List Transaction)
    (h : loadRows db = Except.ok ts) (r : Row) (t : Transaction)
    (hr : rowToTransaction r = Except.ok t) :
    loadRows (db ++ [r]) = Except.ok (ts ++ [t]) := by
  induction db generalizing ts with
  | nil =>
    simp only [loadRows] at h
    cases h
    simp [loadRows, hr]
  | cons r' rest ih =>
    simp only [loadRows] at h
    cases hr' : rowToTransaction r' with
    | error e => rw [hr'] at h; exact absurd h (by simp)
    | ok t' =>
      rw [hr'] at h
      cases hrest : loadRows rest with
      | error e => rw [hrest] at h; exact absurd h (by simp)
      | ok ts' =>
        rw [hrest] at h
        cases h
        rw [List.cons_append]
        simp only [loadRows, hr', ih ts' hrest, List.cons_append]

/-- Claim C5: adding a valid transaction through `add_transaction` and then
reloading from durable storage reproduces a transaction with the same
amount, category and kind, and the same date at the stored whole-second
precision. -/
theorem add_transaction_roundtrip (m : FinanceManager)
    (ts : List Transaction) (hload : loadRows m.db = Except.ok ts)
    (q : ℚ) (hq : 0 < q) (category kind : String)
    (hk : strLower kind ∈ valid_types) (date : Option DateTime)
    (now : DateTime) :
    (m.add_transaction (Amount.num q) category kind date now).1 = true ∧
    ∃ t t',
      Transaction.make (Amount.num q) category kind date now =
        Except.ok t ∧
      loadRows
          ((m.add_transaction (Amount.num q) category kind date now).2).db =
        Except.ok (ts ++ [t']) ∧
      t'.amount = t.amount ∧ t'.category = t.category ∧
      t'.type = t.type ∧ t'.date.truncate = t.date.truncate := by
  have hmk := make_ok q hq category kind hk date now
  have hlow : strLower (strLower kind) = strLower kind :=
    strLower_of_valid (strLower kind) hk
  have hrow : rowToTransaction
      { id := m.nextId, amount := q, category := category,
        type := strLower kind, date := (date.getD now).truncate } =
      Except.ok { amount := q, category := category,
                  type := strLower kind,
                  date := (date.getD now).truncate } := by
    have hmk2 := make_ok q hq category (strLower kind)
      (by rw [hlow]; exact hk)
      (some ((date.getD now).truncate)) ((date.getD now).truncate)
    simpa [rowToTransaction, hlow] using hmk2
  have hdb :
      ((m.add_transaction (Amount.num q) category kind date now).2).db =
      m.db ++ [{ id := m.nextId, amount := q, category := category,
                 type := strLower kind,
                 date := (date.getD now).truncate }] := by
    simp [FinanceManager.add_transaction, hmk]
  refine ⟨by simp [FinanceManager.add_transaction, hmk],
    { amount := q, category := category, type := strLower kind,
      date := date.getD now },
    { amount := q, category := category, type := strLower kind,
      date := (date.getD now).truncate },
    hmk, ?_, rfl, rfl, rfl, rfl⟩
  rw [hdb]
  exact loadRows_append m.db ts hload _ _ hrow

/-- Witness for `add_transaction_roundtrip`: adding 7 for "Rent" as
"Expense" at `now0` to `mgrFood`, whose storage loads as `[tFood]`. -/
theorem add_transaction_roundtrip_witness :
    (mgrFood.add_transaction (Amount.num 7) "Rent" "Expense" (some now0)
      now0).1 = true ∧
    ∃ t t',
      Transaction.make (Amount.num 7) "Rent" "Expense" (some now0) now0 =
        Except.ok t ∧
      loadRows ((mgrFood.add_transaction (Amount.num 7) "Rent" "Expense"
          (some now0) now0).2).db =
        Except.ok ([tFood] ++ [t']) ∧
      t'.amount = t.amount ∧ t'.category = t.category ∧
      t'.type = t.type ∧ t'.date.truncate = t.date.truncate :=
  add_transaction_roundtrip mgrFood [tFood] rfl 7 (by norm_num) "Rent"
    "Expense" (by decide) (some now0) now0

/-- Unfolding lemma: the sum of a dict's values, first entry split off. -/
theorem sumValues_cons (k : String) (v : ℚ) (rest : List (String × ℚ)) :
    sumValues ((k, v) :: rest) = v + sumValues rest := by
  simp [sumValues]

/-- `d[k] = d.get(k, 0) + a` raises the value looked up at `k` by `a` and
leaves every other key's value unchanged. -/
theorem lookupD_dictAdd (d : List (String × ℚ)) (k k' : String) (a : ℚ) :
    lookupD (dictAdd d k a) k' =
      if k = k' then lookupD d k' + a else lookupD d k' := by
  induction d with
  | nil => by_cases h : k = k' <;> simp [dictAdd, lookupD, h]
  | cons p rest ih =>
    obtain ⟨k₀, v⟩ := p
    by_cases h0 : k₀ = k
    · subst h0
      by_cases h : k₀ = k' <;> simp [dictAdd, lookupD, h]
    · by_cases h : k₀ = k' <;>
        by_cases hkk : k = k' <;>
        simp_all [dictAdd, lookupD]

/-- `d[k] = d.get(k, 0) + a` grows the sum of the dict's values by `a`. -/
theorem sumValues_dictAdd (d : List (String × ℚ)) (k : String) (a : ℚ) :
    sumValues (dictAdd d k a) = sumValues d + a := by
  induction d with
  | nil => simp [dictAdd, sumValues]
  | cons p rest ih =>
    obtain ⟨k₀, v⟩ := p
    by_cases h : k₀ = k <;>
      simp [dictAdd, h, sumValues_cons, ih] <;> ring

/-- Invariant of the `get_category_totals` loop, expense side: the values
of the expense dict sum to their initial sum plus the amounts of the
remaining transactions whose type is "expense". -/
theorem categoryTotalsAux_fst_sum (ts : List Transaction)
    (ec ic : List (String × ℚ)) :
    sumValues (categoryTotalsAux ts (ec, ic)).1 =
      sumValues ec +
        ((ts.filter (fun t => t.type = "expense")).map
          Transaction.amount).sum := by
  induction ts generalizing ec ic with
  | nil => simp [categoryTotalsAux]
  | cons t ts ih =>
    by_cases ht : t.type = "expense"
    · simp [categoryTotalsAux, ht, ih, sumValues_dictAdd]
      ring
    · simp [categoryTotalsAux, ht, ih]

/-- Invariant of the `get_category_totals` loop, income side: the values of
the income dict sum to their initial sum plus the amounts of the remaining
transactions whose type is NOT "expense" (the loop's `else` branch). -/
theorem categoryTotalsAux_snd_sum (ts : List Transaction)
    (ec ic : List (String × ℚ)) :
    sumValues (categoryTotalsAux ts (ec, ic)).2 =
      sumValues ic +
        ((ts.filter (fun t => ¬ t.type = "expense")).map
          Transaction.amount).sum := by
  induction ts generalizing ec ic with
  | nil => simp [categoryTotalsAux]
  | cons t ts ih =>
    by_cases ht : t.type = "expense"
    · simp [categoryTotalsAux, ht, ih]
    · simp [categoryTotalsAux, ht, ih, sumValues_dictAdd]
      ring

/-- Invariant of the `get_category_totals` loop, expense side, per key: the
value the expense dict associates to `k` grows by exactly the amounts of
the remaining expense transactions whose category is exactly `k`. -/
theorem categoryTotalsAux_fst_lookup (ts : List Transaction)
    (ec ic : List (String × ℚ)) (k : String) :
    lookupD (categoryTotalsAux ts (ec, ic)).1 k =
      lookupD ec k +
        ((ts.filter (fun t => t.type = "expense" ∧ t.category = k)).map
          Transaction.amount).sum := by
  induction ts generalizing ec ic with
  | nil => simp [categoryTotalsAux]
  | cons t ts ih =>
    by_cases ht : t.type = "expense"
    · by_cases hc : t.category = k
      · simp [categoryTotalsAux, ht, hc, ih, lookupD_dictAdd]
        ring
      · simp [categoryTotalsAux, ht, hc, ih, lookupD_dictAdd]
    · simp [categoryTotalsAux, ht, ih]

/-- Invariant of the `get_category_totals` loop, income side, per key. -/
theorem categoryTotalsAux_snd_lookup (ts : List Transaction)
    (ec ic : List (String × ℚ)) (k : String) :
    lookupD (categoryTotalsAux ts (ec, ic)).2 k =
      lookupD ic k +
        ((ts.filter (fun t => ¬ t.type = "expense" ∧ t.category = k)).map
          Transaction.amount).sum := by
  induction ts generalizing ec ic with
  | nil => simp [categoryTotalsAux]
  | cons t ts ih =>
    by_cases ht : t.type = "expense"
    · simp [categoryTotalsAux, ht, ih]
    · by_cases hc : t.category = k
      · simp [categoryTotalsAux, ht, hc, ih, lookupD_dictAdd]
        ring
      · simp [categoryTotalsAux, ht, hc, ih, lookupD_dictAdd]

/-- A second expense transaction whose category differs from `tFood`'s only
in letter case. -/
def tFoodLower : Transaction :=
  { amount := 2, category := "food", type := "expense", date := now0 }

/-- A manager holding expense transactions for "Food" and "food". -/
def mgrCase : FinanceManager :=
  { transactions := [tFood, tFoodLower], db := [], nextId := 1 }

/-- Claim C8 counterexample: two expense transactions whose category labels
"Food" and "food" agree case-insensitively produce TWO entries in the
expense mapping, not one — the grouping key is the raw string. -/
theorem get_category_totals_case_counterexample :
    strLower "Food" = strLower "food" ∧
    (mgrCase.get_category_totals).1 = [("Food", 10), ("food", 2)] ∧
    ((mgrCase.get_category_totals).1).length ≠ 1 :=
  ⟨rfl, rfl, by decide⟩

/-- Claim C8 (amended): category totals group by the EXACT category string
(case-sensitive): for every label `k`, its entry in the expense
(resp. income) mapping is the sum of the amounts of the expense
(resp. non-expense) transactions whose category equals `k` exactly, so two
labels differing only in letter case contribute to different entries. -/
theorem get_category_totals_exact_grouping (m : FinanceManager)
    (k : String) :
    lookupD (m.get_category_totals).1 k =
      ((m.transactions.filter
          (fun t => t.type = "expense" ∧ t.category = k)).map
        Transaction.amount).sum ∧
    lookupD (m.get_category_totals).2 k =
      ((m.transactions.filter
          (fun t => ¬ t.type = "expense" ∧ t.category = k)).map
        Transaction.amount).sum := by
  constructor
  · rw [FinanceManager.get_category_totals, categoryTotalsAux_fst_lookup]
    simp [lookupD]
  · rw [FinanceManager.get_category_totals, categoryTotalsAux_snd_lookup]
    simp [lookupD]

/-- Claim C10: when every transaction's kind is "expense" or "income", the
values of the expense mapping sum to `get_total_expenses` and the values of
the income mapping sum to `get_total_income`. -/
theorem get_category_totals_sums (m : FinanceManager)
    (h : ∀ t ∈ m.transactions,
        t.type = "expense" ∨ t.type = "income") :
    sumValues (m.get_category_totals).1 = m.get_total_expenses ∧
    sumValues (m.get_category_totals).2 = m.get_total_income := by
  constructor
  · rw [FinanceManager.get_category_totals, categoryTotalsAux_fst_sum]
    simp [FinanceManager.get_total_expenses, sumValues]
  · rw [FinanceManager.get_category_totals, categoryTotalsAux_snd_sum]
    have hfe : m.transactions.filter (fun t => ¬ t.type = "expense") =
        m.transactions.filter (fun t => t.type = "income") := by
      apply List.filter_congr
      intro t ht
      rcases h t ht with h' | h' <;> rw [h'] <;> decide
    rw [hfe]
    simp [FinanceManager.get_total_income, sumValues]

/-- A concrete income transaction: 1200 for "Salary" at `now0`. -/
def tSalary : Transaction :=
  { amount := 1200, category := "Salary", type := "income", date := now0 }

/-- A manager holding one expense and one income transaction. -/
def mgrMix : FinanceManager :=
  { transactions := [tFood, tSalary], db := [], nextId := 1 }

/-- Witness for `get_category_totals_sums` on `mgrMix`. -/
theorem get_category_totals_sums_witness :
    sumValues (mgrMix.get_category_totals).1 = mgrMix.get_total_expenses ∧
    sumValues (mgrMix.get_category_totals).2 = mgrMix.get_total_income :=
  get_category_totals_sums mgrMix (by decide)

end Finman
